import Mathlib

/-!
Verification of the FLAM security-label lattice (`src/flam.cpp`).

The label engine is parameterised over a Boolean-function backend ("Adapter").
The backend implementation lives outside the given sources, so it is modelled
from the specification (section 4.2): formulas over a fixed universe of `n`
principal variables are represented semantically, as predicates on truth
assignments `Fin n → Bool`.  This captures exactly the canonical-form contract:
two formulas are equal iff they are semantically equal, and the implication
test decides tautology over the variable universe.
-/

namespace Flam

/-- A Boolean formula over `n` principal variables, represented by its
semantics: a predicate on truth assignments.  Modelled from the spec: the
backend ("Adapter", in the harness header `common/adapter.h`, absent from the
sources) supplies canonical formulas; semantic functions are the canonical
representation. -/
abbrev BF (n : Nat) : Type := (Fin n → Bool) → Bool

namespace Adapter

/-- Modelled from the spec: the backend constant `⊤` (`a.top()`), the
identically-true formula. -/
def top (n : Nat) : BF n := fun _ => true

/-- Modelled from the spec: the backend constant `⊥` (`a.bot()`), the
identically-false formula. -/
def bot (n : Nat) : BF n := fun _ => false

/-- Modelled from the spec: variable injection (`a.ithvar(i)`), the formula
"variable `i` is true".  An identifier outside the universe is backend-defined
(spec section 7); it is modelled as the false formula. -/
def ithvar (n : Nat) (i : Nat) : BF n :=
  fun ρ => if h : i < n then ρ ⟨i, h⟩ else false

/-- Modelled from the spec: backend conjunction (`a.apply_and`). -/
def apply_and {n : Nat} (a b : BF n) : BF n := fun ρ => a ρ && b ρ

/-- Modelled from the spec: backend disjunction (`a.apply_or`). -/
def apply_or {n : Nat} (a b : BF n) : BF n := fun ρ => a ρ || b ρ

/-- Modelled from the spec: the implication test (`a.is_imp(f, g)`), true iff
`f ⇒ g` is a tautology over the variable universe. -/
def is_imp {n : Nat} (a b : BF n) : Bool :=
  decide (∀ ρ, a ρ = true → b ρ = true)

end Adapter

/-- The spec name for the identically-true backend formula (section 4.2,
`constantTrue()`), used to compare the source constructors against the
spec table. -/
def constantTrue (n : Nat) : BF n := fun _ => true

/-- The spec name for the identically-false backend formula (section 4.2,
`constantFalse()`). -/
def constantFalse (n : Nat) : BF n := fun _ => false

/-- A security label: a pair of a confidentiality and an integrity formula
(`label` class in `flam.cpp`). -/
structure label (n : Nat) where
  confidentiality : BF n
  integrity : BF n
deriving DecidableEq

namespace label

/-- Constructor `label(a, ci)`: confidentiality = integrity = variable `ci`
(the spec fromLevel). -/
def ofLevel (n : Nat) (ci : Nat) : label n :=
  ⟨Adapter.ithvar n ci, Adapter.ithvar n ci⟩

/-- Constructor `label(a, c, i)` (the spec fromPair). -/
def ofPair (n : Nat) (c i : Nat) : label n :=
  ⟨Adapter.ithvar n c, Adapter.ithvar n i⟩

/-- Most restrictive information flow: `top() = label(a.bot(), a.top())`. -/
def top (n : Nat) : label n := ⟨Adapter.bot n, Adapter.top n⟩

/-- Least restrictive information flow: `bot() = label(a.top(), a.bot())`. -/
def bot (n : Nat) : label n := ⟨Adapter.top n, Adapter.bot n⟩

/-- Minimal authority: `nil() = label(a.top(), a.top())`. -/
def nil (n : Nat) : label n := ⟨Adapter.top n, Adapter.top n⟩

/-- Maximal authority: `root() = label(a.bot(), a.bot())`. -/
def root (n : Nat) : label n := ⟨Adapter.bot n, Adapter.bot n⟩

/-- Whether information may flow from this label to `other`
(`label::flows_to`): `is_imp(other.confidentiality, this.confidentiality)`
and `is_imp(this.integrity, other.integrity)`. -/
def flows_to {n : Nat} (self other : label n) : Bool :=
  let c_constraint := Adapter.is_imp other.confidentiality self.confidentiality
  let i_constraint := Adapter.is_imp self.integrity other.integrity
  c_constraint && i_constraint

/-- Whether this label may act on behalf of `other` (`label::acts_for`):
`is_imp(this.confidentiality, other.confidentiality)` and
`is_imp(this.integrity, other.integrity)`. -/
def acts_for {n : Nat} (self other : label n) : Bool :=
  let c_constraint := Adapter.is_imp self.confidentiality other.confidentiality
  let i_constraint := Adapter.is_imp self.integrity other.integrity
  c_constraint && i_constraint

/-- Join, the least upper bound (`label::join`):
`⟨S₁ ∧ S₂, I₁ ∨ I₂⟩`. -/
def join {n : Nat} (self other : label n) : label n :=
  ⟨Adapter.apply_and self.confidentiality other.confidentiality,
   Adapter.apply_or self.integrity other.integrity⟩

/-- Meet, the greatest lower bound (`label::meet`):
`⟨S₁ ∨ S₂, I₁ ∧ I₂⟩`. -/
def meet {n : Nat} (self other : label n) : label n :=
  ⟨Adapter.apply_or self.confidentiality other.confidentiality,
   Adapter.apply_and self.integrity other.integrity⟩

/-- View of a label (`label::view`): `⟨this.integrity, a.top()⟩`. -/
def view {n : Nat} (self : label n) : label n :=
  ⟨self.integrity, Adapter.top n⟩

/-- Voice of a label (`label::voice`): `⟨a.top(), this.confidentiality⟩`. -/
def voice {n : Nat} (self : label n) : label n :=
  ⟨Adapter.top n, self.confidentiality⟩

end label

/-! Harness model: `parsing_policy::parse_input` and `run_flam`. -/

/-- The mutable state the option handler touches: the global `path` variable
and the stream of diagnostics written to stderr. -/
structure ParseState where
  path : String
  stderrLog : List String
deriving DecidableEq

namespace parsing_policy

/-- Shallow embedding of `parsing_policy::parse_input`.  The filesystem is an
oracle `fs` telling whether a file exists.  Returns the `should_exit` flag
together with the updated state: on `-f` with an existing file the global
`path` is set and `false` (continue) is returned; on `-f` with a missing file
a diagnostic goes to stderr and `true` (exit) is returned; any other option
returns `true` untouched. -/
def parse_input (fs : String → Bool) (c : Char) (arg : String) (st : ParseState) :
    Bool × ParseState :=
  if c = 'f' then
    if !(fs arg) then
      (true, { st with stderrLog := st.stderrLog ++ ["File " ++ arg ++ " does not exist"] })
    else
      (false, { st with path := arg })
  else
    (true, st)

end parsing_policy

/-- The two labels the benchmark body constructs (`run_flam`, lines 252-253):
`alice = label(adapter, 0)` over a backend with 2 variables. -/
def alice : label 2 := label.ofLevel 2 0

/-- The second label of the benchmark body: `bob = label(adapter, 1)`. -/
def bob : label 2 := label.ofLevel 2 1

/-- Outcome of a run: either setup failed with a status code and an optional
stderr diagnostic, before any label was constructed, or the backend
computation ran, with the status code it returned and the labels it built. -/
inductive RunOutcome (n : Nat) where
  | setupFailure (code : Int) (message : Option String)
  | completed (code : Int) (constructed : List (label n))
deriving DecidableEq

/-- Shallow embedding of `run_flam` from the point after generic argument
parsing.  The generic option loop lives in the harness header
(`common/input.h`, absent from the sources); modelled from the spec, it
yields the `should_exit` flag and the final value of the `path` global.
`run_flam` returns `-1` when parsing signalled exit, returns `-1` with a
diagnostic when no path was given, and otherwise invokes the backend
computation, which constructs `alice` and `bob` and returns `0`. -/
def run_flam (should_exit : Bool) (p : String) : RunOutcome 2 :=
  if should_exit then
    .setupFailure (-1) none
  else if p = "" then
    .setupFailure (-1) (some "Input file not specified")
  else
    .completed 0 [alice, bob]

/-! Helper lemmas, shared by the claim theorems below. -/

/-- The implication test holds iff the implication is a pointwise tautology. -/
theorem is_imp_eq_true_iff {n : Nat} (a b : BF n) :
    Adapter.is_imp a b = true ↔ ∀ ρ, a ρ = true → b ρ = true := by
  simp [Adapter.is_imp]

/-- Unfolding of `flows_to` to the two tautology tests. -/
theorem flows_to_eq_true_iff {n : Nat} (A B : label n) :
    A.flows_to B = true ↔
      ((∀ ρ, B.confidentiality ρ = true → A.confidentiality ρ = true) ∧
       (∀ ρ, A.integrity ρ = true → B.integrity ρ = true)) := by
  simp [label.flows_to, Adapter.is_imp]

/-- Unfolding of `acts_for` to the two tautology tests. -/
theorem acts_for_eq_true_iff {n : Nat} (A B : label n) :
    A.acts_for B = true ↔
      ((∀ ρ, A.confidentiality ρ = true → B.confidentiality ρ = true) ∧
       (∀ ρ, A.integrity ρ = true → B.integrity ρ = true)) := by
  simp [label.acts_for, Adapter.is_imp]

/-! Claim theorems. -/

/-- C1: for every pair of labels over the same backend, `flows_to(A, B)` is
true iff `B.confidentiality ⇒ A.confidentiality` is a tautology and
`A.integrity ⇒ B.integrity` is a tautology — antitonic in the confidentiality
component, monotonic in the integrity component, and the result is the
conjunction of the two implication tests. -/
theorem flows_to_iff_implications {n : Nat} (A B : label n) :
    A.flows_to B = true ↔
      ((∀ ρ, B.confidentiality ρ = true → A.confidentiality ρ = true) ∧
       (∀ ρ, A.integrity ρ = true → B.integrity ρ = true)) :=
  flows_to_eq_true_iff A B

/-- C2: for every pair of labels over the same backend, `acts_for(A, B)` is
true iff `A.confidentiality ⇒ B.confidentiality` is a tautology and
`A.integrity ⇒ B.integrity` is a tautology — both components imply in the
same direction, unlike `flows_to` whose confidentiality test runs the other
way. -/
theorem acts_for_iff_implications {n : Nat} (A B : label n) :
    A.acts_for B = true ↔
      ((∀ ρ, A.confidentiality ρ = true → B.confidentiality ρ = true) ∧
       (∀ ρ, A.integrity ρ = true → B.integrity ρ = true)) :=
  acts_for_eq_true_iff A B

/-- C3: `join(A, B)` has confidentiality the backend conjunction and integrity
the backend disjunction of the components, and `meet(A, B)` is the
componentwise dual, stated semantically on every truth assignment. -/
theorem join_meet_componentwise {n : Nat} (A B : label n) :
    (∀ ρ, (A.join B).confidentiality ρ = (A.confidentiality ρ && B.confidentiality ρ)) ∧
    (∀ ρ, (A.join B).integrity ρ = (A.integrity ρ || B.integrity ρ)) ∧
    (∀ ρ, (A.meet B).confidentiality ρ = (A.confidentiality ρ || B.confidentiality ρ)) ∧
    (∀ ρ, (A.meet B).integrity ρ = (A.integrity ρ && B.integrity ρ)) :=
  ⟨fun _ => rfl, fun _ => rfl, fun _ => rfl, fun _ => rfl⟩

/-- C4: the four canonical constructors return exactly the spec table of
component pairs, each built only from the backend's two constant formulas:
`bot = ⟨constantTrue, constantFalse⟩`, `top = ⟨constantFalse, constantTrue⟩`,
`nil = ⟨constantTrue, constantTrue⟩`, `root = ⟨constantFalse, constantFalse⟩`. -/
theorem canonical_labels_table (n : Nat) :
    label.bot n = ⟨constantTrue n, constantFalse n⟩ ∧
    label.top n = ⟨constantFalse n, constantTrue n⟩ ∧
    label.nil n = ⟨constantTrue n, constantTrue n⟩ ∧
    label.root n = ⟨constantFalse n, constantFalse n⟩ :=
  ⟨rfl, rfl, rfl, rfl⟩

/-- C5: `flows_to` is a partial order up to formula equality: it is reflexive,
and if it holds in both directions between A and B then the two labels have
semantically equal confidentiality formulas and semantically equal integrity
formulas. -/
theorem flows_to_refl_antisymm {n : Nat} (L A B : label n)
    (h1 : A.flows_to B = true) (h2 : B.flows_to A = true) :
    L.flows_to L = true ∧
      A.confidentiality = B.confidentiality ∧ A.integrity = B.integrity := by
  obtain ⟨hc1, hi1⟩ := (flows_to_eq_true_iff A B).mp h1
  obtain ⟨hc2, hi2⟩ := (flows_to_eq_true_iff B A).mp h2
  refine ⟨(flows_to_eq_true_iff L L).mpr ⟨fun _ h => h, fun _ h => h⟩, ?_, ?_⟩
  · funext ρ
    have ha := hc1 ρ
    have hb := hc2 ρ
    cases hA : A.confidentiality ρ <;> cases hB : B.confidentiality ρ <;> simp_all
  · funext ρ
    have ha := hi1 ρ
    have hb := hi2 ρ
    cases hA : A.integrity ρ <;> cases hB : B.integrity ρ <;> simp_all

/-- C5 witness: the theorem applied at `L = A = B = alice`, the hypotheses
discharged by evaluation. -/
theorem flows_to_refl_antisymm_witness :
    alice.flows_to alice = true ∧
      (alice.flows_to alice = true ∧
        alice.confidentiality = alice.confidentiality ∧
        alice.integrity = alice.integrity) :=
  ⟨by decide, flows_to_refl_antisymm alice alice alice (by decide) (by decide)⟩

/-- C6: `bot()` and `top()` are the global bounds of the flows-to order: every
label is above `bot()` and below `top()`. -/
theorem flows_to_bounds {n : Nat} (L : label n) :
    (label.bot n).flows_to L = true ∧ L.flows_to (label.top n) = true := by
  constructor
  · refine (flows_to_eq_true_iff _ _).mpr ⟨fun ρ _ => rfl, fun ρ h => ?_⟩
    simp [label.bot, Adapter.bot] at h
  · refine (flows_to_eq_true_iff _ _).mpr ⟨fun ρ h => ?_, fun ρ _ => rfl⟩
    simp [label.top, Adapter.bot] at h

/-- C7: `view(L) = ⟨L.integrity, constantTrue⟩` and
`voice(L) = ⟨constantTrue, L.confidentiality⟩`; in particular the integrity of
every view and the confidentiality of every voice is the backend's
identically-true formula. -/
theorem view_voice_projections {n : Nat} (L : label n) :
    L.view = ⟨L.integrity, constantTrue n⟩ ∧
    L.voice = ⟨constantTrue n, L.confidentiality⟩ ∧
    L.view.integrity = constantTrue n ∧
    L.voice.confidentiality = constantTrue n :=
  ⟨rfl, rfl, rfl, rfl⟩

/-- C8: the concrete scenario over a backend with two distinct variables,
`alice = fromLevel(0)` and `bob = fromLevel(1)`: alice flows to herself and to
the join with bob, the join does not flow back to alice, root acts for alice,
and nil does not. -/
theorem concrete_scenario :
    alice.flows_to alice = true ∧
    alice.flows_to (alice.join bob) = true ∧
    (alice.join bob).flows_to alice = false ∧
    (label.root 2).acts_for alice = true ∧
    (label.nil 2).acts_for alice = false := by
  decide

/-- C9: `run_flam` reports failure before any label operation when setup
fails: whenever parsing signalled exit or the path global is still empty it
returns the negative status -1 without invoking the backend computation (so
no label is constructed); and `-f` with a missing file makes the option
handler emit a stderr diagnostic and signal exit. -/
theorem run_flam_setup_failure (should_exit : Bool) (p : String)
    (fs : String → Bool) (arg : String) (st : ParseState)
    (hexit : should_exit = true ∨ p = "") (hmiss : fs arg = false) :
    (∃ m, run_flam should_exit p = RunOutcome.setupFailure (-1) m) ∧
    (∀ code ls, run_flam should_exit p ≠ RunOutcome.completed code ls) ∧
    (-1 : Int) < 0 ∧
    (parsing_policy.parse_input fs 'f' arg st).1 = true ∧
    (parsing_policy.parse_input fs 'f' arg st).2.stderrLog =
      st.stderrLog ++ ["File " ++ arg ++ " does not exist"] := by
  have hrun : ∃ m, run_flam should_exit p = RunOutcome.setupFailure (-1) m := by
    rcases hexit with h | h
    · exact ⟨none, by simp [run_flam, h]⟩
    · cases should_exit
      · exact ⟨some "Input file not specified", by simp [run_flam, h]⟩
      · exact ⟨none, by simp [run_flam]⟩
  refine ⟨hrun, ?_, by decide, ?_, ?_⟩
  · obtain ⟨m, hm⟩ := hrun
    intro code ls hcontra
    rw [hm] at hcontra
    exact RunOutcome.noConfusion hcontra
  · simp [parsing_policy.parse_input, hmiss]
  · simp [parsing_policy.parse_input, hmiss]

/-- C9 witness: the theorem applied at `should_exit = true`, a nonempty path,
a filesystem with no files, and an empty initial state. -/
theorem run_flam_setup_failure_witness :
    (∃ m, run_flam true "model.xml" = RunOutcome.setupFailure (-1) m) ∧
    (∀ code ls, run_flam true "model.xml" ≠ RunOutcome.completed code ls) ∧
    (-1 : Int) < 0 ∧
    (parsing_policy.parse_input (fun _ => false) 'f' "missing.xml" ⟨"", []⟩).1 = true ∧
    (parsing_policy.parse_input (fun _ => false) 'f' "missing.xml" ⟨"", []⟩).2.stderrLog =
      ([] : List String) ++ ["File " ++ "missing.xml" ++ " does not exist"] :=
  run_flam_setup_failure true "model.xml" (fun _ => false) "missing.xml" ⟨"", []⟩
    (Or.inl rfl) rfl

/-- C10: `parse_input` is atomic on error: the path global is assigned exactly
when the option is `f` and the named file exists, and then the handler returns
false (continue); in every other case it returns true (exit) and the path
retains its previous value. -/
theorem parse_input_atomic (fs : String → Bool) (c : Char) (arg : String)
    (st : ParseState) :
    (c = 'f' ∧ fs arg = true →
      parsing_policy.parse_input fs c arg st = (false, { st with path := arg })) ∧
    (¬(c = 'f' ∧ fs arg = true) →
      (parsing_policy.parse_input fs c arg st).1 = true ∧
      (parsing_policy.parse_input fs c arg st).2.path = st.path) := by
  by_cases hc : c = 'f' <;> cases hfs : fs arg <;>
    simp [parsing_policy.parse_input, hc, hfs]

/-- C10 witness: the theorem applied at the option character `f`, a filesystem
where the file exists, and an empty initial state. -/
theorem parse_input_atomic_witness :
    (('f' = 'f' ∧ (fun _ : String => true) "m.xml" = true →
      parsing_policy.parse_input (fun _ => true) 'f' "m.xml" ⟨"", []⟩ =
        (false, ⟨"m.xml", []⟩)) ∧
    (¬('f' = 'f' ∧ (fun _ : String => true) "m.xml" = true) →
      (parsing_policy.parse_input (fun _ => true) 'f' "m.xml" ⟨"", []⟩).1 = true ∧
      (parsing_policy.parse_input (fun _ => true) 'f' "m.xml" ⟨"", []⟩).2.path = "")) :=
  parse_input_atomic (fun _ => true) 'f' "m.xml" ⟨"", []⟩

end Flam
